import Mathlib

/-!
Verification of the inventory stock-mutation core (`pab_backend`).

Shallow embedding of `src/inventario/models.py` (the `Producto` store, the
`InventarioMovimiento` ledger and its classmethod `apply`) and of the legacy
post-save stock hook in `src/inventario/signals.py`, together with the
`Categoria` depth walk.

Modelling decisions, each traceable to the source:

* Database state is a triple of the product table, the movement table (newest
  first, matching the model's `ordering = ["-created_at"]` together with the
  fact that `apply` prepends-on-insert), and the next autogenerated row id.
* `PositiveIntegerField` columns (`Producto.stock`, `InventarioMovimiento.cantidad`)
  carry a storage-level `>= 0` check constraint; saves violating it fail, which
  the embedding surfaces as `MovError.checkConstraint`.
* `operation_id` has a storage-level uniqueness constraint; a conflicting
  insert fails with `MovError.uniqueViolation`.
* `with transaction.atomic():` is embedded as a wrapper that, on any error of
  the transaction body, discards the body's intermediate state and returns the
  caller-visible state unchanged (rollback).
* `str(uuid.uuid4())` is nondeterministic input; the embedding threads the
  value it would produce as an explicit `freshId` argument.
* The receivers in `signals.py` are declared but never imported by any module
  of the repository (there is no app config importing them), and the
  repository's own tests pass only when they are inert (`test_apply_increases_stock_on_IN`
  expects stock 7, not 14, after one `IN 7`). The embedding therefore models
  `apply` without the hooks, and models the legacy hook
  `actualizar_stock_desde_movimiento` as a standalone function for comparison.
* Fields no verified property mentions (timestamps, notes, the acting user,
  product metadata and thresholds) are omitted from the record types.
-/

/-- A row of the product table: `Producto` (models.py lines 49–97), reduced to
the columns the stock-mutation core reads and writes. `stock` is declared
`PositiveIntegerField`; the embedding keeps it an `Int` and enforces the
storage check constraint at save time. -/
structure Producto where
  id : Nat
  stock : Int
deriving Repr, DecidableEq

/-- A row of the movement ledger: `InventarioMovimiento` (models.py lines
102–137), reduced to the columns the core reads and writes. Every row the
applier inserts carries a resolved, non-null `operation_id`, so the column is
embedded as a plain `String`. -/
structure Movimiento where
  id : Nat
  productoId : Nat
  movimientoTipo : String
  cantidad : Int
  operationId : String
deriving Repr, DecidableEq

/-- The persistent state the core touches: the product table, the movement
table (newest row first) and the next autogenerated movement id. -/
structure DB where
  productos : List Producto
  movimientos : List Movimiento
  nextMovId : Nat
deriving Repr, DecidableEq

/-- The error kinds the unit of work can raise. In the source every one of
them is an `IntegrityError` (or `DoesNotExist` for a missing product),
distinguished by message; the embedding distinguishes them by constructor.
`invalidQuantity` is raised only by `InventarioMovimiento.clean`;
`checkConstraint` stands for a storage-level `>= 0` check on a
`PositiveIntegerField` column; `uniqueViolation` for the uniqueness
constraint on `operation_id`. -/
inductive MovError where
  | insufficientStock
  | unsupportedKind
  | notFound
  | uniqueViolation
  | invalidQuantity
  | checkConstraint
deriving Repr, DecidableEq

/-- Outcome of a unit of work: the returned movement row or the raised error,
each together with the database state visible to the caller afterwards. -/
inductive Result where
  | ok (m : Movimiento) (db : DB)
  | error (e : MovError) (db : DB)
deriving Repr, DecidableEq

/-- The request shape of `InventarioMovimiento.apply` (models.py line 150),
reduced to the arguments the core reads. -/
structure Request where
  productoId : Nat
  movimientoTipo : String
  cantidad : Int
  operationId : Option String
deriving Repr, DecidableEq

/-- `cls.objects.filter(operation_id=operation_id).first()` (models.py
line 161): first ledger row carrying the given idempotency token. -/
def findMovByOp (db : DB) (k : String) : Option Movimiento :=
  db.movimientos.find? (fun m => m.operationId == k)

/-- `Producto.objects...get(pk=...)` (models.py line 166): look up a product
row by primary key. -/
def getProducto (db : DB) (pid : Nat) : Option Producto :=
  db.productos.find? (fun p => p.id == pid)

/-- `p.save(update_fields=["stock", "updated_at"])` (models.py line 179):
persist the new stock value. The `PositiveIntegerField` declaration of
`stock` (models.py line 61) puts a `stock >= 0` check constraint on the
column, so a negative value fails the save. -/
def saveStock (db : DB) (pid : Nat) (newStock : Int) : Except MovError DB :=
  if newStock < 0 then .error .checkConstraint
  else .ok { db with
    productos := db.productos.map
      (fun p => if p.id == pid then { p with stock := newStock } else p) }

/-- `InventarioMovimiento.clean` (models.py lines 142–147): the per-kind
quantity rules. Declared on the model and registered only through the
never-imported legacy `signals.py` pre-save receiver, so nothing on the
`apply` path invokes it. -/
def clean (movimientoTipo : String) (cantidad : Int) : Except MovError Unit :=
  if (movimientoTipo = "IN" ∨ movimientoTipo = "OUT") ∧ cantidad ≤ 0 then
    .error .invalidQuantity
  else if movimientoTipo = "ADJ" ∧ cantidad < 0 then
    .error .invalidQuantity
  else .ok ()

/-- `cls.objects.create(...)` (models.py lines 181–189): insert a ledger row.
The `PositiveIntegerField` declaration of `cantidad` (models.py line 118)
puts a `cantidad >= 0` check constraint on the column, and `operation_id`
(models.py line 126) carries a uniqueness constraint; either violation fails
the insert. No receiver is wired, so `clean` does not run here. -/
def createMovimiento (db : DB) (pid : Nat) (tipo : String) (cantidad : Int)
    (k : String) : Except MovError (Movimiento × DB) :=
  if cantidad < 0 then .error .checkConstraint
  else if db.movimientos.any (fun m => m.operationId == k) then
    .error .uniqueViolation
  else
    let m : Movimiento :=
      { id := db.nextMovId, productoId := pid, movimientoTipo := tipo,
        cantidad := cantidad, operationId := k }
    .ok (m, { db with movimientos := m :: db.movimientos,
                      nextMovId := db.nextMovId + 1 })

/-- The per-kind stock computation of `apply` (models.py lines 168–177):
`IN` adds, `OUT` checks sufficiency then subtracts, `ADJ` sets absolutely,
anything else is rejected. -/
def computeNewStock (stock : Int) (tipo : String) (cantidad : Int) :
    Except MovError Int :=
  if tipo = "IN" then .ok (stock + cantidad)
  else if tipo = "OUT" then
    if stock < cantidad then .error .insufficientStock
    else .ok (stock - cantidad)
  else if tipo = "ADJ" then .ok cantidad
  else .error .unsupportedKind

/-- `if not operation_id: operation_id = str(uuid.uuid4())` (models.py lines
155–157). Python's `not` is true for both `None` and the empty string, so an
empty-string token is replaced by a fresh one just like an absent token. -/
def resolveOpId (opId : Option String) (freshId : String) : String :=
  match opId with
  | none => freshId
  | some s => if s = "" then freshId else s

/-- The locked tail of the transaction body (models.py lines 165–190): fetch
the product under `select_for_update`, compute the new stock, save it, insert
the ledger row. On error the carried state is the uncommitted
transaction-local view at the point of failure. -/
def applyLocked (db : DB) (r : Request) (k : String) : Result :=
  match getProducto db r.productoId with
  | none => .error .notFound db
  | some p =>
    match computeNewStock p.stock r.movimientoTipo r.cantidad with
    | .error e => .error e db
    | .ok newStock =>
      match saveStock db r.productoId newStock with
      | .error e => .error e db
      | .ok db1 =>
        match createMovimiento db1 r.productoId r.movimientoTipo r.cantidad k with
        | .error e => .error e db1
        | .ok (m, db2) => .ok m db2

/-- The transaction body of `apply` (models.py lines 159–190): resolve the
idempotency token, return any existing row carrying it unchanged, otherwise
run the locked tail. -/
def applyBody (db : DB) (r : Request) (freshId : String) : Result :=
  let k := resolveOpId r.operationId freshId
  match findMovByOp db k with
  | some existing => .ok existing db
  | none => applyLocked db r k

/-- `InventarioMovimiento.apply` (models.py lines 149–190). The
`with transaction.atomic():` block commits the body's state on success and
rolls every mutation back on error, so an erroring call leaves the
caller-visible state exactly as it was. -/
def apply (db : DB) (r : Request) (freshId : String) : Result :=
  match applyBody db r freshId with
  | .ok m dbNew => .ok m dbNew
  | .error e _ => .error e db

/-- The state reached by a call, whether it succeeded or failed. -/
def Result.state : Result → DB
  | .ok _ db => db
  | .error _ db => db

/-- Stock of a product as seen in a state. -/
def stockOf (db : DB) (pid : Nat) : Option Int :=
  (getProducto db pid).map Producto.stock

/-- Every product row carries non-negative stock. -/
def allStockNonneg (db : DB) : Prop :=
  ∀ p ∈ db.productos, 0 ≤ p.stock

/-- A sequence of `apply` calls, each running from the state the previous
call left behind (committed on success, rolled back on error). -/
def applyAll (db : DB) : List (Request × String) → DB
  | [] => db
  | (r, f) :: rest => applyAll (apply db r f).state rest

/-- The second of two `apply` calls racing on the same idempotency token,
scheduled as the storage layer serialises them: both calls pass the
`filter(...).first()` check against the initial state `db0` (neither sees the
other's uncommitted insert), the first call commits, producing `db1`, and the
second call's locked tail (models.py lines 165–190) then runs against `db1`,
where its insert hits the uniqueness constraint on `operation_id`. The
source's `apply` has no handler around the insert, so the body's error is
what the atomic block re-raises to the caller, after rolling back to `db1`. -/
def raceSecond (db0 db1 : DB) (r : Request) (freshId : String) : Result :=
  let k := resolveOpId r.operationId freshId
  match findMovByOp db0 k with
  | some existing => .ok existing db1
  | none =>
    match applyLocked db1 r k with
    | .ok m db2 => .ok m db2
    | .error e _ => .error e db1

/-- The legacy post-save hook `actualizar_stock_desde_movimiento`
(signals.py lines 13–36), as the stock transformation it performs for a
freshly inserted movement: `IN` adds, `OUT` subtracts and silently clamps a
negative result to zero, `ADJ` sets absolutely, any other kind leaves the
stock untouched. -/
def actualizar_stock_desde_movimiento (stock : Int) (tipo : String)
    (cantidad : Int) : Int :=
  if tipo = "IN" then stock + cantidad
  else if tipo = "OUT" then
    let s := stock - cantidad
    if s < 0 then 0 else s
  else if tipo = "ADJ" then cantidad
  else stock

/-- `Categoria.es_raiz` (models.py lines 33–35): a category is a root exactly
when its parent link is absent. The category table is abstracted as the
parent map `parent : Nat → Option Nat`. -/
def es_raiz (parent : Nat → Option Nat) (c : Nat) : Bool :=
  (parent c).isNone

/-- The loop body of `Categoria.nivel` (models.py lines 37–44):
`nivel = 0; while current.parent: nivel += 1; current = current.parent`.
The Python loop has no fuel — on a parent cycle it diverges — so the
embedding adds an explicit fuel that the correctness theorem discharges for
any chain the fuel covers. -/
def nivelGo (parent : Nat → Option Nat) : Nat → Nat → Nat → Nat
  | 0, _, acc => acc
  | fuel + 1, current, acc =>
    match parent current with
    | none => acc
    | some q => nivelGo parent fuel q (acc + 1)

/-- `Categoria.nivel`: the iterative parent-chain walk started at depth 0. -/
def nivel (parent : Nat → Option Nat) (fuel : Nat) (c : Nat) : Nat :=
  nivelGo parent fuel c 0

/-- `ParentChain parent c n`: walking parent links from `c` reaches a root in
exactly `n` steps — the "finite acyclic parent chain" hypothesis. -/
inductive ParentChain (parent : Nat → Option Nat) : Nat → Nat → Prop where
  | root {c : Nat} : parent c = none → ParentChain parent c 0
  | step {c q n : Nat} : parent c = some q → ParentChain parent q n →
      ParentChain parent c (n + 1)

/-! Helper lemmas about the embedded operations. -/

/-- A client-supplied non-empty token is kept as-is. -/
theorem resolveOpId_some {k : String} (f : String) (hne : k ≠ "") :
    resolveOpId (some k) f = k := by
  simp [resolveOpId, hne]

/-- If the replay lookup misses, no ledger row carries the token. -/
theorem findMovByOp_none {db : DB} {k : String} (h : findMovByOp db k = none) :
    ∀ m ∈ db.movimientos, m.operationId ≠ k := by
  intro m hm
  have := List.find?_eq_none.mp h m hm
  simpa using this

/-- The row the replay lookup returns carries the looked-up token. -/
theorem findMovByOp_some_op {db : DB} {k : String} {m : Movimiento}
    (h : findMovByOp db k = some m) : m.operationId = k := by
  have := List.find?_some h
  simpa using this

/-- A missed replay lookup makes the insert-time uniqueness scan pass. -/
theorem findMovByOp_none_any {db : DB} {k : String}
    (h : findMovByOp db k = none) :
    db.movimientos.any (fun m => m.operationId == k) = false := by
  rw [List.any_eq_false]
  intro m hm
  simpa using findMovByOp_none h m hm

/-- A hit replay lookup makes the insert-time uniqueness scan fail. -/
theorem findMovByOp_some_any {db : DB} {k : String} {m : Movimiento}
    (h : findMovByOp db k = some m) :
    db.movimientos.any (fun x => x.operationId == k) = true := by
  refine List.any_eq_true.mpr ⟨m, List.mem_of_find?_eq_some h, ?_⟩
  simpa using findMovByOp_some_op h

/-- Characterisation of a successful stock save. -/
theorem saveStock_ok {db : DB} {pid : Nat} {v : Int} {db1 : DB}
    (h : saveStock db pid v = .ok db1) :
    0 ≤ v ∧
    db1.productos = db.productos.map
      (fun p => if p.id == pid then { p with stock := v } else p) ∧
    db1.movimientos = db.movimientos ∧ db1.nextMovId = db.nextMovId := by
  unfold saveStock at h
  split at h
  · exact absurd h (by simp)
  · next hv =>
    injection h with h1
    subst h1
    exact ⟨by omega, rfl, rfl, rfl⟩

/-- Characterisation of a successful ledger insert. -/
theorem createMovimiento_ok {db : DB} {pid : Nat} {tipo : String} {q : Int}
    {k : String} {m : Movimiento} {db2 : DB}
    (h : createMovimiento db pid tipo q k = .ok (m, db2)) :
    m = ⟨db.nextMovId, pid, tipo, q, k⟩ ∧
    db2.productos = db.productos ∧
    db2.movimientos = m :: db.movimientos ∧
    db2.nextMovId = db.nextMovId + 1 := by
  unfold createMovimiento at h
  split at h
  · exact absurd h (by simp)
  · split at h
    · exact absurd h (by simp)
    · injection h with h1
      injection h1 with h2 h3
      subst h2
      subst h3
      exact ⟨rfl, rfl, rfl, rfl⟩

/-- The primary-key lookup, after the stock update of the looked-up row. -/
theorem find_map_update (l : List Producto) (pid : Nat) (v : Int) (p : Producto)
    (h : l.find? (fun x => x.id == pid) = some p) :
    (l.map (fun x => if x.id == pid then { x with stock := v } else x)).find?
        (fun x => x.id == pid) = some { p with stock := v } := by
  induction l with
  | nil => simp at h
  | cons hd tl ih =>
    rw [List.find?_cons] at h
    rw [List.map_cons, List.find?_cons]
    by_cases hid : (hd.id == pid) = true
    · simp only [hid] at h
      injection h with h1
      subst h1
      simp [hid]
    · simp only [Bool.not_eq_true] at hid
      simp only [hid] at h
      rw [if_neg (by simp [hid])]
      simp only [hid]
      exact ih h

/-- After a successful save, the primary-key lookup sees the new stock. -/
theorem getProducto_after_save {db db1 : DB} {pid : Nat} {v : Int} {p : Producto}
    (hp : getProducto db pid = some p) (h : saveStock db pid v = .ok db1) :
    getProducto db1 pid = some { p with stock := v } := by
  obtain ⟨-, hprod, -, -⟩ := saveStock_ok h
  unfold getProducto at hp ⊢
  rw [hprod]
  exact find_map_update _ _ _ _ hp

/-- A stock update to a non-negative value keeps every row non-negative. -/
theorem nonneg_after_update {db : DB} {pid : Nat} {v : Int}
    (hdb : allStockNonneg db) (hv : 0 ≤ v) :
    ∀ p ∈ db.productos.map
        (fun x => if x.id == pid then { x with stock := v } else x),
      0 ≤ p.stock := by
  intro p hp
  obtain ⟨x, hx, rfl⟩ := List.mem_map.mp hp
  by_cases h : (x.id == pid) = true
  · simpa [h] using hv
  · simp only [Bool.not_eq_true] at h
    simpa [h] using hdb x hx

/-- Running the locked tail on a fresh token with an existing product and a
successful stock computation: the save and the insert go through, and the
result is the freshly numbered ledger row together with the updated state. -/
theorem applyLocked_ok_run {db : DB} {r : Request} {k : String} {p : Producto}
    {ns : Int}
    (hp : getProducto db r.productoId = some p)
    (hcomp : computeNewStock p.stock r.movimientoTipo r.cantidad = .ok ns)
    (hns : 0 ≤ ns) (hq : 0 ≤ r.cantidad)
    (hany : db.movimientos.any (fun m => m.operationId == k) = false) :
    ∃ db2, applyLocked db r k =
        .ok ⟨db.nextMovId, r.productoId, r.movimientoTipo, r.cantidad, k⟩ db2 ∧
      getProducto db2 r.productoId = some { p with stock := ns } ∧
      db2.movimientos =
        (⟨db.nextMovId, r.productoId, r.movimientoTipo, r.cantidad, k⟩ : Movimiento)
          :: db.movimientos := by
  have hsave : saveStock db r.productoId ns = .ok { db with
      productos := db.productos.map
        (fun x => if x.id == r.productoId then { x with stock := ns } else x) } := by
    unfold saveStock
    rw [if_neg (by omega)]
  have hcreate : createMovimiento { db with
      productos := db.productos.map
        (fun x => if x.id == r.productoId then { x with stock := ns } else x) }
      r.productoId r.movimientoTipo r.cantidad k =
      .ok (⟨db.nextMovId, r.productoId, r.movimientoTipo, r.cantidad, k⟩,
        { productos := db.productos.map
            (fun x => if x.id == r.productoId then { x with stock := ns } else x),
          movimientos :=
            (⟨db.nextMovId, r.productoId, r.movimientoTipo, r.cantidad, k⟩ : Movimiento)
              :: db.movimientos,
          nextMovId := db.nextMovId + 1 }) := by
    unfold createMovimiento
    rw [if_neg (by omega), if_neg (by simp [hany])]
  refine ⟨⟨db.productos.map
      (fun x => if x.id == r.productoId then { x with stock := ns } else x),
    (⟨db.nextMovId, r.productoId, r.movimientoTipo, r.cantidad, k⟩ : Movimiento)
      :: db.movimientos,
    db.nextMovId + 1⟩, ?_, ?_, ?_⟩
  · unfold applyLocked
    simp only [hp, hcomp, hsave, hcreate]
  · have h2 := getProducto_after_save hp hsave
    exact h2
  · rfl

/-- Whatever succeeds in the locked tail is a freshly numbered row carrying
the resolved token, prepended to the ledger, above a state whose product
table is the input table with one row's stock replaced by a non-negative
value. -/
theorem applyLocked_ok_elim {db : DB} {r : Request} {k : String}
    {m : Movimiento} {db2 : DB}
    (h : applyLocked db r k = .ok m db2) :
    m.operationId = k ∧ m.id = db.nextMovId ∧
    db2.movimientos = m :: db.movimientos ∧
    ∃ ns, 0 ≤ ns ∧ db2.productos = db.productos.map
      (fun x => if x.id == r.productoId then { x with stock := ns } else x) := by
  unfold applyLocked at h
  split at h
  · exact absurd h (by simp)
  · split at h
    · exact absurd h (by simp)
    · next ns hcomp =>
      split at h
      · exact absurd h (by simp)
      · next db1 hsave =>
        split at h
        · exact absurd h (by simp)
        · next m2 db2m hcreate =>
          injection h with h1 h2
          subst h1
          subst h2
          obtain ⟨hm, hprod2, hmov2, -⟩ := createMovimiento_ok hcreate
          obtain ⟨hns, hprod1, hmov1, hnext1⟩ := saveStock_ok hsave
          subst hm
          refine ⟨rfl, by rw [hnext1], ?_, ns, hns, ?_⟩
          · rw [hmov2, hmov1, hnext1]
          · rw [hprod2, hprod1]

/-- The transaction body either returns a replayed row on the unchanged
state, or runs the locked tail on a token absent from the ledger. -/
theorem applyBody_ok_elim {db : DB} {r : Request} {f : String}
    {m : Movimiento} {dbAfter : DB}
    (h : applyBody db r f = .ok m dbAfter) :
    (findMovByOp db (resolveOpId r.operationId f) = some m ∧ dbAfter = db) ∨
    (findMovByOp db (resolveOpId r.operationId f) = none ∧
      applyLocked db r (resolveOpId r.operationId f) = .ok m dbAfter) := by
  simp only [applyBody] at h
  split at h
  · next ex hfind =>
    injection h with h1 h2
    subst h1
    subst h2
    exact Or.inl ⟨hfind, rfl⟩
  · next hfind => exact Or.inr ⟨hfind, h⟩

/-- A successful committed call is a successful body. -/
theorem apply_ok_elim {db : DB} {r : Request} {f : String}
    {m : Movimiento} {dbAfter : DB}
    (h : apply db r f = .ok m dbAfter) :
    applyBody db r f = .ok m dbAfter := by
  unfold apply at h
  split at h
  · next m2 db2 heq =>
    injection h with h1 h2
    subst h1
    subst h2
    exact heq
  · exact absurd h (by simp)

/-- The atomic block rolls an erroring call back to the caller-visible input
state, whatever intermediate state the body reached. -/
theorem apply_error_rollback {db : DB} {r : Request} {f : String}
    {e : MovError} {dbAfter : DB}
    (h : apply db r f = .error e dbAfter) : dbAfter = db := by
  unfold apply at h
  split at h
  · exact absurd h (by simp)
  · injection h with h1 h2
    subst h2
    rfl

/-- A body error surfaces as the same error on the rolled-back state. -/
theorem apply_of_body_error {db : DB} {r : Request} {f : String}
    {e : MovError} {dbMid : DB}
    (h : applyBody db r f = .error e dbMid) :
    apply db r f = .error e db := by
  unfold apply
  rw [h]

/-- The returned row of a successful call carries the resolved token and is
found by a replay lookup against the committed state. -/
theorem apply_ok_find {db : DB} {r : Request} {f : String}
    {m : Movimiento} {dbAfter : DB}
    (h : apply db r f = .ok m dbAfter) :
    findMovByOp dbAfter (resolveOpId r.operationId f) = some m ∧
    m.operationId = resolveOpId r.operationId f := by
  rcases applyBody_ok_elim (apply_ok_elim h) with ⟨hfind, rfl⟩ | ⟨hfind, hlock⟩
  · exact ⟨hfind, findMovByOp_some_op hfind⟩
  · obtain ⟨hop, -, hmov, -⟩ := applyLocked_ok_elim hlock
    refine ⟨?_, hop⟩
    unfold findMovByOp
    rw [hmov, List.find?_cons]
    simp [hop]

/-- A fresh-token call running the locked tail to completion: commit returns
the freshly numbered row and the state with the new stock and the prepended
ledger row. -/
theorem apply_ok_of_fresh {db : DB} {r : Request} {f : String} {p : Producto}
    {ns : Int}
    (hp : getProducto db r.productoId = some p)
    (hfind : findMovByOp db (resolveOpId r.operationId f) = none)
    (hcomp : computeNewStock p.stock r.movimientoTipo r.cantidad = .ok ns)
    (hns : 0 ≤ ns) (hq : 0 ≤ r.cantidad) :
    ∃ db2, apply db r f =
        .ok ⟨db.nextMovId, r.productoId, r.movimientoTipo, r.cantidad,
          resolveOpId r.operationId f⟩ db2 ∧
      stockOf db2 r.productoId = some ns ∧
      db2.movimientos =
        (⟨db.nextMovId, r.productoId, r.movimientoTipo, r.cantidad,
          resolveOpId r.operationId f⟩ : Movimiento) :: db.movimientos := by
  obtain ⟨db2, hlock, hget, hmov⟩ :=
    applyLocked_ok_run hp hcomp hns hq (findMovByOp_none_any hfind)
  refine ⟨db2, ?_, ?_, hmov⟩
  · unfold apply
    simp only [applyBody, hfind, hlock]
  · unfold stockOf
    rw [hget]
    rfl

/-- An `OUT` for more than the current stock aborts with `insufficientStock`
and commits nothing (models.py lines 170–172 under the atomic block). -/
theorem apply_out_insufficient {db : DB} {r : Request} {f : String}
    {p : Producto}
    (htipo : r.movimientoTipo = "OUT")
    (hp : getProducto db r.productoId = some p)
    (hlt : p.stock < r.cantidad)
    (hfind : findMovByOp db (resolveOpId r.operationId f) = none) :
    apply db r f = .error .insufficientStock db := by
  have hcomp : computeNewStock p.stock r.movimientoTipo r.cantidad
      = .error .insufficientStock := by
    rw [htipo]
    unfold computeNewStock
    rw [if_neg (by decide), if_pos rfl, if_pos hlt]
  have hbody : applyBody db r f = .error .insufficientStock db := by
    simp only [applyBody, hfind]
    unfold applyLocked
    simp only [hp, hcomp]
  exact apply_of_body_error hbody

/-- One successful call keeps every product row's stock non-negative. -/
theorem apply_preserves_nonneg {db : DB} {r : Request} {f : String}
    {m : Movimiento} {dbAfter : DB}
    (hdb : allStockNonneg db) (h : apply db r f = .ok m dbAfter) :
    allStockNonneg dbAfter := by
  rcases applyBody_ok_elim (apply_ok_elim h) with ⟨-, rfl⟩ | ⟨-, hlock⟩
  · exact hdb
  · obtain ⟨-, -, -, ns, hns, hprod⟩ := applyLocked_ok_elim hlock
    intro q hq
    rw [hprod] at hq
    exact nonneg_after_update hdb hns q hq

/-- Any call, committed or rolled back, keeps every stock non-negative. -/
theorem apply_state_nonneg {db : DB} (r : Request) (f : String)
    (hdb : allStockNonneg db) : allStockNonneg (apply db r f).state := by
  rcases hres : apply db r f with ⟨m, dbAfter⟩ | ⟨e, dbAfter⟩
  · exact apply_preserves_nonneg hdb hres
  · have hroll := apply_error_rollback hres
    subst hroll
    exact hdb

/-- Every state along a sequence of calls keeps all stocks non-negative. -/
theorem applyAll_nonneg {db : DB} (rs : List (Request × String))
    (hdb : allStockNonneg db) : allStockNonneg (applyAll db rs) := by
  induction rs generalizing db with
  | nil => exact hdb
  | cons hd tl ih =>
    obtain ⟨r, f⟩ := hd
    exact ih (apply_state_nonneg r f hdb)

/-- The fueled walk counts exactly the links of a terminating parent chain,
whatever the accumulator, as soon as the fuel covers the chain. -/
theorem nivelGo_chain {parent : Nat → Option Nat} {c n : Nat}
    (h : ParentChain parent c n) :
    ∀ fuel acc, n ≤ fuel → nivelGo parent fuel c acc = acc + n := by
  induction h with
  | root hc =>
    intro fuel acc _
    cases fuel with
    | zero => simp [nivelGo]
    | succ f => simp [nivelGo, hc]
  | step hc hchain ih =>
    intro fuel acc hf
    cases fuel with
    | zero => omega
    | succ f =>
      simp only [nivelGo, hc]
      rw [ih f (acc + 1) (by omega)]
      omega

/-- C1: Idempotent replay. A call whose (non-empty) `operation_id` matches an
already-persisted Movement returns that Movement unchanged with no stock
mutation, regardless of the replayed parameters; and after any successful
call with client token `k`, a second call with the same token — any product,
kind or quantity — returns the very same Movement on the very same state, so
stock reflects exactly one application. -/
theorem apply_idempotent_replay :
    (∀ db r f k m, r.operationId = some k → k ≠ "" →
      findMovByOp db k = some m → apply db r f = .ok m db) ∧
    (∀ db r f m dbAfter k r2 f2, r.operationId = some k → k ≠ "" →
      apply db r f = .ok m dbAfter → r2.operationId = some k →
      apply dbAfter r2 f2 = .ok m dbAfter) := by
  constructor
  · intro db r f k m hk hne hfind
    have hres : resolveOpId r.operationId f = k := by
      rw [hk]
      exact resolveOpId_some f hne
    unfold apply
    simp only [applyBody, hres, hfind]
  · intro db r f m dbAfter k r2 f2 hk hne h1 hk2
    obtain ⟨hfind, -⟩ := apply_ok_find h1
    have hres1 : resolveOpId r.operationId f = k := by
      rw [hk]
      exact resolveOpId_some f hne
    have hres2 : resolveOpId r2.operationId f2 = k := by
      rw [hk2]
      exact resolveOpId_some f2 hne
    rw [hres1] at hfind
    unfold apply
    simp only [applyBody, hres2, hfind]

/-- Witness for C1: a concrete `IN 4` with token `dup-1` followed by a
replayed call with different parameters returns the original row on the
unchanged state. -/
theorem apply_idempotent_replay_witness :
    apply ⟨[⟨1, 4⟩], [⟨0, 1, "IN", 4, "dup-1"⟩], 1⟩
        ⟨1, "OUT", 99, some "dup-1"⟩ "u2"
      = .ok ⟨0, 1, "IN", 4, "dup-1"⟩ ⟨[⟨1, 4⟩], [⟨0, 1, "IN", 4, "dup-1"⟩], 1⟩ :=
  apply_idempotent_replay.2 ⟨[⟨1, 0⟩], [], 0⟩ ⟨1, "IN", 4, some "dup-1"⟩ "u1"
    ⟨0, 1, "IN", 4, "dup-1"⟩ ⟨[⟨1, 4⟩], [⟨0, 1, "IN", 4, "dup-1"⟩], 1⟩ "dup-1"
    ⟨1, "OUT", 99, some "dup-1"⟩ "u2" rfl (by decide) (by decide) rfl

/-- C2: Non-negative stock invariant. A successful call, and hence any
sequence of calls, keeps every product's stock non-negative; an `OUT` whose
quantity strictly exceeds the current stock errors with `insufficientStock`
and leaves the state — stock included — exactly unchanged. -/
theorem apply_stock_nonneg :
    (∀ db r f m dbAfter, allStockNonneg db → apply db r f = .ok m dbAfter →
      allStockNonneg dbAfter) ∧
    (∀ db rs, allStockNonneg db → allStockNonneg (applyAll db rs)) ∧
    (∀ db r f p, r.movimientoTipo = "OUT" →
      getProducto db r.productoId = some p → p.stock < r.cantidad →
      findMovByOp db (resolveOpId r.operationId f) = none →
      apply db r f = .error .insufficientStock db) :=
  ⟨fun _ _ _ _ _ hdb h => apply_preserves_nonneg hdb h,
   fun _ rs hdb => applyAll_nonneg rs hdb,
   fun _ _ _ _ ht hp hlt hf => apply_out_insufficient ht hp hlt hf⟩

/-- Witness for C2: after a concrete successful `IN 4` all stocks are
non-negative; so along a two-call sequence; and `OUT 1` against stock 0
fails with `insufficientStock` leaving the state unchanged. -/
theorem apply_stock_nonneg_witness :
    allStockNonneg ⟨[⟨1, 4⟩], [⟨0, 1, "IN", 4, "dup-1"⟩], 1⟩ ∧
    allStockNonneg (applyAll ⟨[⟨1, 0⟩], [], 0⟩
      [(⟨1, "IN", 4, some "a"⟩, "u1"), (⟨1, "OUT", 9, some "b"⟩, "u2")]) ∧
    apply ⟨[⟨1, 0⟩], [], 0⟩ ⟨1, "OUT", 1, some "w"⟩ "u"
      = .error .insufficientStock ⟨[⟨1, 0⟩], [], 0⟩ :=
  ⟨apply_stock_nonneg.1 ⟨[⟨1, 0⟩], [], 0⟩ ⟨1, "IN", 4, some "dup-1"⟩ "u1"
      ⟨0, 1, "IN", 4, "dup-1"⟩ ⟨[⟨1, 4⟩], [⟨0, 1, "IN", 4, "dup-1"⟩], 1⟩
      (by simp [allStockNonneg]) (by decide),
   apply_stock_nonneg.2.1 ⟨[⟨1, 0⟩], [], 0⟩
      [(⟨1, "IN", 4, some "a"⟩, "u1"), (⟨1, "OUT", 9, some "b"⟩, "u2")]
      (by simp [allStockNonneg]),
   apply_stock_nonneg.2.2 ⟨[⟨1, 0⟩], [], 0⟩ ⟨1, "OUT", 1, some "w"⟩ "u" ⟨1, 0⟩
      rfl (by decide) (by decide) (by decide)⟩

/-- C3: Movement arithmetic. On a fresh token and an existing product with
non-negative stock `s`, a successful `IN q` (`q > 0`) commits stock `s + q`,
a successful `OUT q` (`0 < q ≤ s`) commits `s - q`, and a successful `ADJ q`
(`q ≥ 0`) commits the absolute value `q`, independent of `s`. -/
theorem apply_movement_arithmetic :
    ∀ db r f p, getProducto db r.productoId = some p → 0 ≤ p.stock →
      findMovByOp db (resolveOpId r.operationId f) = none →
      ((r.movimientoTipo = "IN" → 0 < r.cantidad →
        ∃ m dbAfter, apply db r f = .ok m dbAfter ∧
          stockOf dbAfter r.productoId = some (p.stock + r.cantidad)) ∧
       (r.movimientoTipo = "OUT" → 0 < r.cantidad → r.cantidad ≤ p.stock →
        ∃ m dbAfter, apply db r f = .ok m dbAfter ∧
          stockOf dbAfter r.productoId = some (p.stock - r.cantidad)) ∧
       (r.movimientoTipo = "ADJ" → 0 ≤ r.cantidad →
        ∃ m dbAfter, apply db r f = .ok m dbAfter ∧
          stockOf dbAfter r.productoId = some r.cantidad)) := by
  intro db r f p hp hs hfind
  refine ⟨?_, ?_, ?_⟩
  · intro ht hq
    have hcomp : computeNewStock p.stock r.movimientoTipo r.cantidad
        = .ok (p.stock + r.cantidad) := by
      rw [ht]
      unfold computeNewStock
      rw [if_pos rfl]
    obtain ⟨db2, happ, hstock, -⟩ :=
      apply_ok_of_fresh hp hfind hcomp (by omega) (by omega)
    exact ⟨_, db2, happ, hstock⟩
  · intro ht hq hle
    have hcomp : computeNewStock p.stock r.movimientoTipo r.cantidad
        = .ok (p.stock - r.cantidad) := by
      rw [ht]
      unfold computeNewStock
      rw [if_neg (by decide), if_pos rfl, if_neg (by omega)]
    obtain ⟨db2, happ, hstock, -⟩ :=
      apply_ok_of_fresh hp hfind hcomp (by omega) (by omega)
    exact ⟨_, db2, happ, hstock⟩
  · intro ht hq
    have hcomp : computeNewStock p.stock r.movimientoTipo r.cantidad
        = .ok r.cantidad := by
      rw [ht]
      unfold computeNewStock
      rw [if_neg (by decide), if_neg (by decide), if_pos rfl]
    obtain ⟨db2, happ, hstock, -⟩ := apply_ok_of_fresh hp hfind hcomp hq hq
    exact ⟨_, db2, happ, hstock⟩

/-- Witness for C3: from stock 5, `IN 3` commits 8, `OUT 3` commits 2 and
`ADJ 12` commits 12. -/
theorem apply_movement_arithmetic_witness :
    (∃ m dbAfter, apply ⟨[⟨1, 5⟩], [], 0⟩ ⟨1, "IN", 3, some "a"⟩ "u"
        = .ok m dbAfter ∧ stockOf dbAfter 1 = some 8) ∧
    (∃ m dbAfter, apply ⟨[⟨1, 5⟩], [], 0⟩ ⟨1, "OUT", 3, some "b"⟩ "u"
        = .ok m dbAfter ∧ stockOf dbAfter 1 = some 2) ∧
    (∃ m dbAfter, apply ⟨[⟨1, 5⟩], [], 0⟩ ⟨1, "ADJ", 12, some "c"⟩ "u"
        = .ok m dbAfter ∧ stockOf dbAfter 1 = some 12) :=
  ⟨(apply_movement_arithmetic ⟨[⟨1, 5⟩], [], 0⟩ ⟨1, "IN", 3, some "a"⟩ "u"
      ⟨1, 5⟩ rfl (by decide) rfl).1 rfl (by decide),
   (apply_movement_arithmetic ⟨[⟨1, 5⟩], [], 0⟩ ⟨1, "OUT", 3, some "b"⟩ "u"
      ⟨1, 5⟩ rfl (by decide) rfl).2.1 rfl (by decide) (by decide),
   (apply_movement_arithmetic ⟨[⟨1, 5⟩], [], 0⟩ ⟨1, "ADJ", 12, some "c"⟩ "u"
      ⟨1, 5⟩ rfl (by decide) rfl).2.2 rfl (by decide)⟩

/-- Counterexample to C4 as stated: an `apply` call with kind `IN` and
quantity `0` — which the claim says must signal `InvalidQuantity` before any
lock — instead commits successfully, appending a quantity-0 ledger row and
leaving stock unchanged; no `InvalidQuantity` is signalled at all. -/
theorem apply_no_invalid_quantity_cex :
    apply ⟨[⟨1, 5⟩], [], 0⟩ ⟨1, "IN", 0, some "k0"⟩ "u"
      = .ok ⟨0, 1, "IN", 0, "k0"⟩ ⟨[⟨1, 5⟩], [⟨0, 1, "IN", 0, "k0"⟩], 1⟩ := by
  decide

/-- C4 as amended: the per-kind quantity rules (reject `IN`/`OUT` with
quantity ≤ 0 and `ADJ` with quantity < 0) are exactly the content of
`InventarioMovimiento.clean`, but the applier never invokes them: an `IN`
call with quantity 0 on an existing product and fresh token commits
successfully with a quantity-0 ledger row and unchanged stock. -/
theorem clean_rules_not_enforced_by_apply :
    (∀ tipo q, clean tipo q = .error .invalidQuantity ↔
      (((tipo = "IN" ∨ tipo = "OUT") ∧ q ≤ 0) ∨ (tipo = "ADJ" ∧ q < 0))) ∧
    (∀ db r f p, r.movimientoTipo = "IN" → r.cantidad = 0 →
      getProducto db r.productoId = some p → 0 ≤ p.stock →
      findMovByOp db (resolveOpId r.operationId f) = none →
      ∃ m dbAfter, apply db r f = .ok m dbAfter ∧ m.cantidad = 0 ∧
        stockOf dbAfter r.productoId = some p.stock) := by
  constructor
  · intro tipo q
    unfold clean
    split
    · next h1 => exact iff_of_true rfl (Or.inl h1)
    · next h1 =>
      split
      · next h2 => exact iff_of_true rfl (Or.inr h2)
      · next h2 =>
        refine iff_of_false (by simp) ?_
        rintro (h | h)
        · exact h1 h
        · exact h2 h
  · intro db r f p ht hq hp hs hfind
    have hcomp : computeNewStock p.stock r.movimientoTipo r.cantidad
        = .ok (p.stock + r.cantidad) := by
      rw [ht]
      unfold computeNewStock
      rw [if_pos rfl]
    obtain ⟨db2, happ, hstock, -⟩ :=
      apply_ok_of_fresh hp hfind hcomp (by omega) (by omega)
    refine ⟨_, db2, happ, hq, ?_⟩
    rw [hstock, hq, add_zero]

/-- Witness for C4 (amended): `clean` does reject `IN 0`, yet the concrete
`apply` of `IN 0` commits with a quantity-0 row and stock still 5. -/
theorem clean_rules_not_enforced_by_apply_witness :
    clean "IN" 0 = .error .invalidQuantity ∧
    (∃ m dbAfter, apply ⟨[⟨1, 5⟩], [], 0⟩ ⟨1, "IN", 0, some "k0"⟩ "u"
      = .ok m dbAfter ∧ m.cantidad = 0 ∧ stockOf dbAfter 1 = some 5) :=
  ⟨(clean_rules_not_enforced_by_apply.1 "IN" 0).mpr (by decide),
   clean_rules_not_enforced_by_apply.2 ⟨[⟨1, 5⟩], [], 0⟩
     ⟨1, "IN", 0, some "k0"⟩ "u" ⟨1, 5⟩ rfl rfl rfl (by decide) rfl⟩

/-- Counterexample to C5 as stated: in the duplicate race the claim says the
applier catches the uniqueness violation and returns the existing row; on
the embedded source the second racing call instead surfaces
`uniqueViolation` to the caller (the first call's committed state is shown
explicitly). -/
theorem race_unique_violation_cex :
    apply ⟨[⟨1, 0⟩], [], 0⟩ ⟨1, "IN", 4, some "dup-1"⟩ "u1"
      = .ok ⟨0, 1, "IN", 4, "dup-1"⟩ ⟨[⟨1, 4⟩], [⟨0, 1, "IN", 4, "dup-1"⟩], 1⟩ ∧
    raceSecond ⟨[⟨1, 0⟩], [], 0⟩ ⟨[⟨1, 4⟩], [⟨0, 1, "IN", 4, "dup-1"⟩], 1⟩
        ⟨1, "IN", 4, some "dup-1"⟩ "u2"
      = .error .uniqueViolation ⟨[⟨1, 4⟩], [⟨0, 1, "IN", 4, "dup-1"⟩], 1⟩ := by
  decide

/-- C5 as amended: the applier's only duplicate defence inside the
transaction is the pre-insert existence check; it installs no handler around
the insert, so when two calls race on one token — both passing the check on
the initial state, the first committing — the second call's insert hits the
`operation_id` uniqueness constraint and that violation is propagated to the
caller as an error (the rollback still prevents any double application: the
second call leaves the first call's state untouched). -/
theorem race_unique_violation_propagates :
    ∀ db0 db1 r f p,
      findMovByOp db0 (resolveOpId r.operationId f) = none →
      getProducto db1 r.productoId = some p →
      r.movimientoTipo = "IN" → 0 ≤ r.cantidad → 0 ≤ p.stock →
      (∃ m, findMovByOp db1 (resolveOpId r.operationId f) = some m) →
      raceSecond db0 db1 r f = .error .uniqueViolation db1 := by
  intro db0 db1 r f p hfind0 hp ht hq hs hdup
  obtain ⟨m, hdup⟩ := hdup
  have hcomp : computeNewStock p.stock r.movimientoTipo r.cantidad
      = .ok (p.stock + r.cantidad) := by
    rw [ht]
    unfold computeNewStock
    rw [if_pos rfl]
  have hsave : saveStock db1 r.productoId (p.stock + r.cantidad) = .ok { db1 with
      productos := db1.productos.map
        (fun x => if x.id == r.productoId
          then { x with stock := p.stock + r.cantidad } else x) } := by
    unfold saveStock
    rw [if_neg (by omega)]
  have hany := findMovByOp_some_any hdup
  have hcreate : createMovimiento { db1 with
      productos := db1.productos.map
        (fun x => if x.id == r.productoId
          then { x with stock := p.stock + r.cantidad } else x) }
      r.productoId r.movimientoTipo r.cantidad (resolveOpId r.operationId f)
      = .error .uniqueViolation := by
    unfold createMovimiento
    rw [if_neg (by omega), if_pos hany]
  unfold raceSecond
  simp only [hfind0]
  unfold applyLocked
  simp only [hp, hcomp, hsave, hcreate]

/-- Witness for C5 (amended): the concrete race instance through the general
theorem. -/
theorem race_unique_violation_propagates_witness :
    raceSecond ⟨[⟨1, 0⟩], [], 0⟩ ⟨[⟨1, 4⟩], [⟨0, 1, "IN", 4, "dup-1"⟩], 1⟩
        ⟨1, "IN", 4, some "dup-1"⟩ "u3"
      = .error .uniqueViolation ⟨[⟨1, 4⟩], [⟨0, 1, "IN", 4, "dup-1"⟩], 1⟩ :=
  race_unique_violation_propagates ⟨[⟨1, 0⟩], [], 0⟩
    ⟨[⟨1, 4⟩], [⟨0, 1, "IN", 4, "dup-1"⟩], 1⟩ ⟨1, "IN", 4, some "dup-1"⟩ "u3"
    ⟨1, 4⟩ (by decide) (by decide) rfl (by decide) (by decide)
    ⟨⟨0, 1, "IN", 4, "dup-1"⟩, by decide⟩

/-- C6: Atomicity of the unit of work. Whenever a call errors, the
caller-visible state equals the input state exactly — both the product table
and the ledger — and in particular a transaction body that failed mid-way,
with an intermediate state already mutated (e.g. at the ledger-append step,
after the stock save), commits nothing: the atomic block surfaces the body's
error on the rolled-back input state. -/
theorem apply_atomic_rollback :
    (∀ db r f e dbAfter, apply db r f = .error e dbAfter → dbAfter = db) ∧
    (∀ db r f e dbMid, applyBody db r f = .error e dbMid →
      apply db r f = .error e db) :=
  ⟨fun _ _ _ _ _ h => apply_error_rollback h,
   fun _ _ _ _ _ h => apply_of_body_error h⟩

/-- Witness for C6: an `IN -3` from stock 10 passes the stock save (the
body's intermediate state holds stock 7) and then fails at the ledger
append; the committed view of the call still holds stock 10 and an empty
ledger. -/
theorem apply_atomic_rollback_witness :
    applyBody ⟨[⟨1, 10⟩], [], 0⟩ ⟨1, "IN", -3, some "k1"⟩ "u"
      = .error .checkConstraint ⟨[⟨1, 7⟩], [], 0⟩ ∧
    apply ⟨[⟨1, 10⟩], [], 0⟩ ⟨1, "IN", -3, some "k1"⟩ "u"
      = .error .checkConstraint ⟨[⟨1, 10⟩], [], 0⟩ :=
  ⟨by decide,
   apply_atomic_rollback.2 ⟨[⟨1, 10⟩], [], 0⟩ ⟨1, "IN", -3, some "k1"⟩ "u"
     .checkConstraint ⟨[⟨1, 7⟩], [], 0⟩ (by decide)⟩

/-- C7: Legacy variant divergence. For an `OUT` of `q` against stock `s`
with `q > s`, the hardened per-kind computation of `apply` aborts with
`insufficientStock` (and the call leaves the state unchanged), while the
legacy post-save hook silently clamps the stock to zero; for `IN`, `ADJ`,
and `OUT` with `q ≤ s` the two variants compute the same final stock. -/
theorem legacy_signal_divergence :
    ∀ s q : Int,
      (s < q → computeNewStock s "OUT" q = .error .insufficientStock ∧
        actualizar_stock_desde_movimiento s "OUT" q = 0) ∧
      (q ≤ s → computeNewStock s "OUT" q
        = .ok (actualizar_stock_desde_movimiento s "OUT" q)) ∧
      computeNewStock s "IN" q
        = .ok (actualizar_stock_desde_movimiento s "IN" q) ∧
      computeNewStock s "ADJ" q
        = .ok (actualizar_stock_desde_movimiento s "ADJ" q) ∧
      (∀ db r f p, r.movimientoTipo = "OUT" →
        getProducto db r.productoId = some p → p.stock < r.cantidad →
        findMovByOp db (resolveOpId r.operationId f) = none →
        apply db r f = .error .insufficientStock db) := by
  intro s q
  refine ⟨?_, ?_, ?_, ?_, ?_⟩
  · intro hlt
    have h2 : s - q < 0 := by omega
    constructor
    · simp [computeNewStock, hlt]
    · simp [actualizar_stock_desde_movimiento, h2]
  · intro hle
    have h1 : ¬ s < q := by omega
    have h2 : ¬ s - q < 0 := by omega
    simp [computeNewStock, actualizar_stock_desde_movimiento, h1, h2]
  · simp [computeNewStock, actualizar_stock_desde_movimiento]
  · simp [computeNewStock, actualizar_stock_desde_movimiento]
  · intro db r f p ht hp hlt hfind
    exact apply_out_insufficient ht hp hlt hfind

/-- Witness for C7: at stock 3, `OUT 5` errors on the hardened path while
the legacy hook clamps to 0; at stock 5, `OUT 3` agrees on 2; and the
concrete `apply` of `OUT 1` against stock 0 errors with an unchanged
state. -/
theorem legacy_signal_divergence_witness :
    (computeNewStock 3 "OUT" 5 = .error .insufficientStock ∧
      actualizar_stock_desde_movimiento 3 "OUT" 5 = 0) ∧
    computeNewStock 5 "OUT" 3
      = .ok (actualizar_stock_desde_movimiento 5 "OUT" 3) ∧
    apply ⟨[⟨1, 0⟩], [], 0⟩ ⟨1, "OUT", 1, some "w7"⟩ "u"
      = .error .insufficientStock ⟨[⟨1, 0⟩], [], 0⟩ :=
  ⟨(legacy_signal_divergence 3 5).1 (by decide),
   (legacy_signal_divergence 5 3).2.1 (by decide),
   (legacy_signal_divergence 0 1).2.2.2.2 ⟨[⟨1, 0⟩], [], 0⟩
     ⟨1, "OUT", 1, some "w7"⟩ "u" ⟨1, 0⟩ rfl (by decide) (by decide) (by decide)⟩

/-- C8: Unsupported kind rejection. A fresh-token call on an existing
product whose movement kind is none of `IN`, `OUT`, `ADJ` errors with
`unsupportedKind` and the committed state — stock and ledger — is exactly
the input state. -/
theorem apply_unsupported_kind :
    ∀ db r f p, getProducto db r.productoId = some p →
      findMovByOp db (resolveOpId r.operationId f) = none →
      r.movimientoTipo ≠ "IN" → r.movimientoTipo ≠ "OUT" →
      r.movimientoTipo ≠ "ADJ" →
      apply db r f = .error .unsupportedKind db := by
  intro db r f p hp hfind h1 h2 h3
  have hcomp : computeNewStock p.stock r.movimientoTipo r.cantidad
      = .error .unsupportedKind := by
    unfold computeNewStock
    rw [if_neg h1, if_neg h2, if_neg h3]
  have hbody : applyBody db r f = .error .unsupportedKind db := by
    simp only [applyBody, hfind]
    unfold applyLocked
    simp only [hp, hcomp]
  exact apply_of_body_error hbody

/-- Witness for C8: a concrete call with kind `XX` errors with
`unsupportedKind` on the unchanged state. -/
theorem apply_unsupported_kind_witness :
    apply ⟨[⟨1, 5⟩], [], 0⟩ ⟨1, "XX", 2, some "k8"⟩ "u"
      = .error .unsupportedKind ⟨[⟨1, 5⟩], [], 0⟩ :=
  apply_unsupported_kind ⟨[⟨1, 5⟩], [], 0⟩ ⟨1, "XX", 2, some "k8"⟩ "u" ⟨1, 5⟩
    rfl (by decide) (by decide) (by decide) (by decide)

/-- C9: Category depth and root flag. For a category whose parent chain is
finite and acyclic (it reaches a root in `n` links), the iterative
parent-chain walk `nivel` computes exactly `n` whenever its fuel covers the
chain; a root (parent absent) has depth 0; and `es_raiz` holds exactly when
the parent link is absent. -/
theorem nivel_parent_walk :
    ∀ (parent : Nat → Option Nat) (c n fuel : Nat),
      ParentChain parent c n → n ≤ fuel →
      (nivel parent fuel c = n ∧
       (es_raiz parent c = true ↔ parent c = none) ∧
       (parent c = none → nivel parent fuel c = 0)) := by
  intro parent c n fuel hchain hfuel
  refine ⟨?_, ?_, ?_⟩
  · have h := nivelGo_chain hchain fuel 0 hfuel
    simpa [nivel] using h
  · simp [es_raiz, Option.isNone_iff_eq_none]
  · intro hroot
    cases fuel with
    | zero => rfl
    | succ fl => simp [nivel, nivelGo, hroot]

/-- Witness for C9: with parent map `c ↦ c - 1` (root 0), category 2 sits at
depth 2 and is not a root, while category 0 is. -/
theorem nivel_parent_walk_witness :
    nivel (fun c => if c = 0 then none else some (c - 1)) 3 2 = 2 ∧
    es_raiz (fun c => if c = 0 then none else some (c - 1)) 0 = true := by
  have hchain : ParentChain (fun c => if c = 0 then none else some (c - 1)) 2 2 :=
    ParentChain.step rfl (ParentChain.step rfl (ParentChain.root rfl))
  refine ⟨(nivel_parent_walk _ 2 2 3 hchain (by omega)).1, ?_⟩
  have hroot : ParentChain (fun c => if c = 0 then none else some (c - 1)) 0 0 :=
    ParentChain.root rfl
  exact (nivel_parent_walk _ 0 0 3 hroot (by omega)).2.1.mpr rfl

/-- C10: The replay lookup is keyed on `operation_id` alone. A call whose
token matches an existing Movement of a *different* product returns that
other product's Movement with no error and no mutation of any state; an
empty-string token behaves exactly like an absent one; and on a fresh
generated token no replay matching occurs — a successful call returns a
newly numbered row carrying the generated token, not an existing row. -/
theorem replay_lookup_ignores_product :
    (∀ db r f k m, r.operationId = some k → k ≠ "" →
      findMovByOp db k = some m → m.productoId ≠ r.productoId →
      apply db r f = .ok m db) ∧
    (∀ db r f, r.operationId = some "" →
      apply db r f = apply db { r with operationId := none } f) ∧
    (∀ db r f m dbAfter, r.operationId = some "" →
      findMovByOp db f = none → apply db r f = .ok m dbAfter →
      m.operationId = f ∧ m.id = db.nextMovId) := by
  refine ⟨?_, ?_, ?_⟩
  · intro db r f k m hk hne hfind hdiff
    have hres : resolveOpId r.operationId f = k := by
      rw [hk]
      exact resolveOpId_some f hne
    unfold apply
    simp only [applyBody, hres, hfind]
  · intro db r f hk
    have h1 : resolveOpId r.operationId f = f := by
      rw [hk]
      simp [resolveOpId]
    unfold apply
    simp only [applyBody, h1]
    rfl
  · intro db r f m dbAfter hk hfind happ
    have hres : resolveOpId r.operationId f = f := by
      rw [hk]
      simp [resolveOpId]
    rw [← hres] at hfind
    rcases applyBody_ok_elim (apply_ok_elim happ) with ⟨hsome, -⟩ | ⟨-, hlock⟩
    · rw [hfind] at hsome
      exact absurd hsome (by simp)
    · obtain ⟨hop, hid, -, -⟩ := applyLocked_ok_elim hlock
      rw [hres] at hop
      exact ⟨hop, hid⟩

/-- Witness for C10: a token persisted for product 7 replays on a request
for product 3, returning product 7's Movement with no error and no state
change; and an empty-string token call equals the absent-token call. -/
theorem replay_lookup_ignores_product_witness :
    apply ⟨[⟨3, 5⟩, ⟨7, 2⟩], [⟨0, 7, "IN", 2, "z"⟩], 1⟩
        ⟨3, "OUT", 1, some "z"⟩ "u"
      = .ok ⟨0, 7, "IN", 2, "z"⟩ ⟨[⟨3, 5⟩, ⟨7, 2⟩], [⟨0, 7, "IN", 2, "z"⟩], 1⟩ ∧
    apply ⟨[⟨1, 5⟩], [], 0⟩ ⟨1, "IN", 2, some ""⟩ "fresh-1"
      = apply ⟨[⟨1, 5⟩], [], 0⟩ ⟨1, "IN", 2, none⟩ "fresh-1" :=
  ⟨replay_lookup_ignores_product.1 ⟨[⟨3, 5⟩, ⟨7, 2⟩], [⟨0, 7, "IN", 2, "z"⟩], 1⟩
      ⟨3, "OUT", 1, some "z"⟩ "u" "z" ⟨0, 7, "IN", 2, "z"⟩ rfl (by decide)
      (by decide) (by decide),
   replay_lookup_ignores_product.2.1 ⟨[⟨1, 5⟩], [], 0⟩ ⟨1, "IN", 2, some ""⟩
      "fresh-1" rfl⟩
